import Mathlib

/-!
Shallow embedding of the `release_tool` package (files `config.py`,
`latex_build.py`, `release.py`).

Filesystem paths are modelled as lists of components measured from the
filesystem root (`[]` is the root, `Path.parent` drops the last component).
The functions imported from `git_operations` (not part of the sources here)
are external calls whose outcomes — success or a raised exception — are
supplied by an environment record; `run_release` is a function of that
environment, returning the process exit code together with the ordered trace
of external actions it performed (prompts, git queries, release creation).
-/

namespace ReleaseTool

/-- The Python exception kinds that can cross a call boundary in this
program: the four caught explicitly in `run_release`, the operator
interrupt, and a catch-all for any other `Exception`. -/
inductive Exc where
  | gitError
  | githubError
  | runtimeError
  | fileNotFoundError
  | keyboardInterrupt
  | other
deriving DecidableEq, Repr

/-- Decidable equality for call outcomes, so concrete runs can be checked
by evaluation. -/
instance {ε α : Type} [DecidableEq ε] [DecidableEq α] : DecidableEq (Except ε α) := fun a b =>
  match a, b with
  | Except.ok x, Except.ok y =>
      if h : x = y then isTrue (by rw [h]) else isFalse (fun hc => by cases hc; exact h rfl)
  | Except.error x, Except.error y =>
      if h : x = y then isTrue (by rw [h]) else isFalse (fun hc => by cases hc; exact h rfl)
  | Except.ok _, Except.error _ => isFalse (fun hc => by cases hc)
  | Except.error _, Except.ok _ => isFalse (fun hc => by cases hc)

/-- A path as its list of components from the filesystem root;
`[]` is the root itself. -/
abbrev Path := List String

/-- Python `path.parent`: drops the last component; the root
is its own parent. -/
def Path.parent (p : Path) : Path := p.dropLast

/-- Abstract filesystem state: the working directory, which paths exist,
and the lines of the text file at a path (used for `.env`). -/
structure FS where
  cwd : Path
  pathExists : Path → Bool
  fileLines : Path → List String

/-- The single-quote character, written via its code point. -/
def squote : Char := Char.ofNat 39

/-- The double-quote character, written via its code point. -/
def dquote : Char := Char.ofNat 34

/-- Python `s.strip()`: remove leading and trailing whitespace. -/
def pyStrip (s : String) : String :=
  String.mk (((s.data.dropWhile Char.isWhitespace).reverse.dropWhile Char.isWhitespace).reverse)

/-- Python `s.startswith(piece)`. -/
def pyStartsWith (s piece : String) : Bool :=
  piece.data.isPrefixOf s.data

/-- Python `s.strip(c)` for a one-character strip set: remove every leading
and trailing occurrence of `c`. -/
def stripChar (c : Char) (s : String) : String :=
  String.mk (((s.data.dropWhile (fun x => x = c)).reverse.dropWhile (fun x => x = c)).reverse)

/-- Split a character list at every occurrence of `c` (Python
`s.split(c)` for a one-character separator: adjacent separators yield
empty pieces). -/
def splitChar (c : Char) : List Char → List (List Char)
  | [] => [[]]
  | x :: xs =>
      if x = c then [] :: splitChar c xs
      else
        match splitChar c xs with
        | [] => [[x]]
        | g :: gs => (x :: g) :: gs

/-- Python `line.partition sep` restricted to the pieces `release_tool`
uses: the text before the first `=` and the text after it (the whole line
and `""` when no `=` occurs). -/
def partitionEq (s : String) : String × String :=
  match splitChar (Char.ofNat 61) s.data with
  | [] => (s, "")
  | [x] => (String.mk x, "")
  | x :: rest => (String.mk x, String.mk (List.intercalate [Char.ofNat 61] rest))

/-- The loop of `config.find_project_root`, walking the reversed component list: the
head of the reversed list is the last component, so the recursive call is
the loop step `current = current.parent`. -/
def find_root_rev (fs : FS) : List String → Except Exc Path
  | [] => Except.error Exc.runtimeError
  | c :: rest =>
      if fs.pathExists ((c :: rest).reverse ++ [".git"]) then Except.ok ((c :: rest).reverse)
      else find_root_rev fs rest

/-- Source `config.find_project_root`: ascend from `start` towards the root,
returning the first directory holding a `.git` entry; the loop guard
`current != current.parent` stops at the root, which is never examined,
and a `RuntimeError` is raised there. -/
def find_project_root (fs : FS) (start : Path) : Except Exc Path :=
  find_root_rev fs start.reverse

/-- The body of the line loop of `config.load_env`: strip the line, skip
blank lines and `#` comments, split on the first `=`, strip the key, strip
the value and peel surrounding double then single quotes, and record the
binding (later bindings shadow earlier ones at lookup). -/
def parse_env_lines (lines : List String) : List (String × String) :=
  lines.foldl
    (fun acc rawLine =>
      let line := pyStrip rawLine
      if line ≠ "" ∧ ¬ pyStartsWith line "#" then
        let kv := partitionEq line
        acc ++ [(pyStrip kv.1, stripChar squote (stripChar dquote (pyStrip kv.2)))]
      else acc)
    []

/-- Python `dict` lookup with default, for a binding list where the latest
binding of a key wins (Python dict assignment overwrites). -/
def dictGet (l : List (String × String)) (k d : String) : String :=
  match l.reverse.find? (fun p => p.1 = k) with
  | some p => p.2
  | none => d

/-- Source `config.load_env`: raise `FileNotFoundError` when `project_root/.env`
does not exist, else parse its lines. -/
def load_env (fs : FS) (project_root : Path) : Except Exc (List (String × String)) :=
  if fs.pathExists (project_root ++ [".env"]) then
    Except.ok (parse_env_lines (fs.fileLines (project_root ++ [".env"])))
  else Except.error Exc.fileNotFoundError

/-- Python `Path / s`: split `s` on slashes dropping empty components; an
absolute `s` replaces the base path. -/
def pathJoin (p : Path) (s : String) : Path :=
  let parts := ((splitChar (Char.ofNat 47) s.data).map String.mk).filter (fun c => c ≠ "")
  if pyStartsWith s "/" then parts else p ++ parts

/-- The configuration object built by `Config.__init__`. -/
structure Config where
  project_root : Path
  main_branch : String
  latex_dir : Path
deriving DecidableEq, Repr

/-- Source `config.Config.__init__`: find the project root, load `.env`, read
`MAIN_BRANCH` (default `"main"`) and `LATEX_DIR` (default `""`), and fail
with `FileNotFoundError` when the LaTeX directory does not exist. -/
def Config.init (fs : FS) : Except Exc Config := do
  let project_root ← find_project_root fs fs.cwd
  let env_vars ← load_env fs project_root
  let main_branch := dictGet env_vars "MAIN_BRANCH" "main"
  let latex_dir_str := dictGet env_vars "LATEX_DIR" ""
  let latex_dir := pathJoin project_root latex_dir_str
  if fs.pathExists latex_dir then
    Except.ok { project_root := project_root, main_branch := main_branch, latex_dir := latex_dir }
  else Except.error Exc.fileNotFoundError

/-- Source `latex_build.build_latex`: `FileNotFoundError` when
`latex_dir/Makefile` is missing; otherwise run `make deploy`
(outcome supplied by `mk`), re-raising a non-zero exit as `RuntimeError`. -/
def build_latex (fs : FS) (mk : Bool) (latex_dir : Path) : Except Exc Unit :=
  if fs.pathExists (latex_dir ++ ["Makefile"]) = false then Except.error Exc.fileNotFoundError
  else if mk then Except.ok () else Except.error Exc.runtimeError

/-- The release record returned by `is_latest_commit_released` (a dict with
key `tagName` and optional `name` and `body`). -/
structure ReleaseInfo where
  tagName : String
  name : Option String
  body : Option String
deriving DecidableEq, Repr

/-- Outcomes of the external calls into `git_operations` (that module is
imported by `release.py` but is not among the sources): each field is the
result the call would produce on this run — a value, or the exception it
raises. `check_up_to_date` is called twice with fresh reads, so the two
call sites have independent outcomes. -/
structure GitEnv where
  check_on_main_branch : Except Exc Unit
  check_up_to_date1 : Except Exc Unit
  is_latest_commit_released : Except Exc (Bool × Option ReleaseInfo)
  check_tag_validity : String → Except Exc Unit
  create_github_release : String → String → String → Except Exc Unit
  check_up_to_date2 : Except Exc Unit
  verify_release_on_latest_commit : String → Except Exc Unit

/-- The whole outside world `run_release` interacts with: the filesystem,
the `make deploy` outcome, the git/GitHub call outcomes, and the operator's
successive responses to `input()` (a response may itself be a raised
exception, e.g. an interrupt at the prompt). -/
structure Env where
  fs : FS
  makeSucceeds : Bool
  git : GitEnv
  inputs : List (Except Exc String)

/-- Source `release.prompt_user`: return the operator's response, stripped. -/
def prompt_user (response : String) : String := pyStrip response

/-- Externally visible action of a run, in order of occurrence. -/
inductive Event where
  | configLoad
  | build
  | gitCheckBranch
  | gitCheckUpToDate
  | gitQueryReleased
  | prompt
  | gitCheckTag
  | gitCreateRelease (tag : String) (title : String) (notes : String)
  | gitVerify
deriving DecidableEq, Repr

/-- The arguments of every `create_github_release` invocation recorded in a
trace, in order. -/
def createCalls : List Event → List (String × String × String)
  | [] => []
  | Event.gitCreateRelease a b c :: t => (a, b, c) :: createCalls t
  | _ :: t => createCalls t

/-- The `while True` tag loop of `run_release`: consume responses until one
strips to a non-empty tag (yielding the tag and the unconsumed responses),
an exception is raised at the prompt, or the supply of responses is
exhausted (`none` — the run blocks at the prompt forever). -/
def collectTag : List (Except Exc String) → Option (Except Exc String × List (Except Exc String))
  | [] => none
  | Except.error e :: rest => some (Except.error e, rest)
  | Except.ok s :: rest =>
      if prompt_user s = "" then collectTag rest
      else some (Except.ok (prompt_user s), rest)

/-- How many times the tag loop calls `prompt_user` (the prompt at which
the run blocks or is interrupted is counted). -/
def tagPromptCount : List (Except Exc String) → Nat
  | [] => 1
  | Except.error _ :: _ => 1
  | Except.ok s :: rest => if prompt_user s = "" then 1 + tagPromptCount rest else 1

/-- Result of one run: the process exit code (`none` when the run blocks
forever on operator input) and the trace of external actions. -/
structure RunResult where
  exitCode : Option Nat
  trace : List Event
deriving DecidableEq, Repr

/-- Source `release.run_release`, step for step: load configuration, build the
LaTeX document, check branch and sync, query whether the head commit is
already released (early exit 0; subscripting an absent release record
raises and maps to exit 1), collect tag/title/notes from the operator with
the documented defaults, validate the tag, create the release, re-check
sync and verify the release.  Every exception listed in `Exc` is caught at
the boundary and maps to exit code 1. -/
def run_release (env : Env) : RunResult :=
  match Config.init env.fs with
  | Except.error _ => ⟨some 1, [Event.configLoad]⟩
  | Except.ok config =>
  match build_latex env.fs env.makeSucceeds config.latex_dir with
  | Except.error _ => ⟨some 1, [Event.configLoad, Event.build]⟩
  | Except.ok _ =>
  match env.git.check_on_main_branch with
  | Except.error _ => ⟨some 1, [Event.configLoad, Event.build, Event.gitCheckBranch]⟩
  | Except.ok _ =>
  match env.git.check_up_to_date1 with
  | Except.error _ =>
      ⟨some 1, [Event.configLoad, Event.build, Event.gitCheckBranch, Event.gitCheckUpToDate]⟩
  | Except.ok _ =>
  match env.git.is_latest_commit_released with
  | Except.error _ =>
      ⟨some 1, [Event.configLoad, Event.build, Event.gitCheckBranch, Event.gitCheckUpToDate,
        Event.gitQueryReleased]⟩
  | Except.ok (is_released, latest_release) =>
  let t5 := [Event.configLoad, Event.build, Event.gitCheckBranch, Event.gitCheckUpToDate,
    Event.gitQueryReleased]
  if is_released then
    match latest_release with
    | none => ⟨some 1, t5⟩
    | some _ => ⟨some 0, t5⟩
  else
  let tagTrace := t5 ++ List.replicate (tagPromptCount env.inputs) Event.prompt
  match collectTag env.inputs with
  | none => ⟨none, tagTrace⟩
  | some (Except.error _, _) => ⟨some 1, tagTrace⟩
  | some (Except.ok new_tag, rest) =>
  match rest with
  | [] => ⟨none, tagTrace ++ [Event.prompt]⟩
  | Except.error _ :: _ => ⟨some 1, tagTrace ++ [Event.prompt]⟩
  | Except.ok titleRaw :: rest2 =>
  let release_title := if prompt_user titleRaw = "" then new_tag else prompt_user titleRaw
  match rest2 with
  | [] => ⟨none, tagTrace ++ [Event.prompt, Event.prompt]⟩
  | Except.error _ :: _ => ⟨some 1, tagTrace ++ [Event.prompt, Event.prompt]⟩
  | Except.ok notesRaw :: _rest3 =>
  let release_notes := prompt_user notesRaw
  let t8 := tagTrace ++ [Event.prompt, Event.prompt, Event.gitCheckTag]
  match env.git.check_tag_validity new_tag with
  | Except.error _ => ⟨some 1, t8⟩
  | Except.ok _ =>
  let t9 := t8 ++ [Event.gitCreateRelease new_tag release_title release_notes]
  match env.git.create_github_release new_tag release_title release_notes with
  | Except.error _ => ⟨some 1, t9⟩
  | Except.ok _ =>
  match env.git.check_up_to_date2 with
  | Except.error _ => ⟨some 1, t9 ++ [Event.gitCheckUpToDate]⟩
  | Except.ok _ =>
  match env.git.verify_release_on_latest_commit new_tag with
  | Except.error _ => ⟨some 1, t9 ++ [Event.gitCheckUpToDate, Event.gitVerify]⟩
  | Except.ok _ => ⟨some 0, t9 ++ [Event.gitCheckUpToDate, Event.gitVerify]⟩

/-! Concrete worlds used to instantiate the theorems below on closed
inputs: a filesystem whose project root is `["repo"]`, a git environment
in which every external call succeeds with no prior release, and an
operator who retypes the tag once, accepts the default title and types
some notes. -/

/-- A concrete filesystem: `.git` and `.env` at `["repo"]`, the LaTeX
sources with their `Makefile` at `["repo", "latex"]`. -/
def fsW : FS :=
  { cwd := ["repo", "sub"]
    pathExists := fun p =>
      decide (p = ["repo", ".git"] ∨ p = ["repo", ".env"] ∨ p = ["repo", "latex"]
        ∨ p = ["repo", "latex", "Makefile"])
    fileLines := fun _ => ["MAIN_BRANCH=main", "LATEX_DIR=latex"] }

/-- A git environment in which every external call succeeds and the head
commit has no release yet. -/
def gitOKW : GitEnv :=
  { check_on_main_branch := Except.ok ()
    check_up_to_date1 := Except.ok ()
    is_latest_commit_released := Except.ok (false, none)
    check_tag_validity := fun _ => Except.ok ()
    create_github_release := fun _ _ _ => Except.ok ()
    check_up_to_date2 := Except.ok ()
    verify_release_on_latest_commit := fun _ => Except.ok () }

/-- A concrete full run: blank tag response first, then a padded tag,
default title, and some notes. -/
def envW : Env :=
  { fs := fsW
    makeSucceeds := true
    git := gitOKW
    inputs := [Except.ok " ", Except.ok " v1.0.0 ", Except.ok "", Except.ok "notes here"] }

/-- The successful world, except that the head commit already carries
release `v0.9.0`. -/
def envDupW : Env :=
  { envW with git :=
      { gitOKW with is_latest_commit_released := Except.ok (true, some ⟨"v0.9.0", none, none⟩) } }

/-- The successful world with an operator who types the tag `v2.3.0`,
then an empty title and empty notes. -/
def envSubW : Env :=
  { envW with inputs := [Except.ok "v2.3.0", Except.ok "", Except.ok ""] }

/-- The successful world with whitespace-only responses: a blank tag
response, a padded tag, a whitespace title and whitespace notes. -/
def envWsW : Env :=
  { envW with inputs := [Except.ok " ", Except.ok " v1.0.0 ", Except.ok "  ", Except.ok " "] }

/-- The preconditions before the duplicate check: configuration loaded,
document built, branch and sync checks passed. -/
def preStepsOk (env : Env) : Prop :=
  ∃ cfg, Config.init env.fs = Except.ok cfg ∧
    build_latex env.fs env.makeSucceeds cfg.latex_dir = Except.ok () ∧
    env.git.check_on_main_branch = Except.ok () ∧
    env.git.check_up_to_date1 = Except.ok ()

/-- The confirmed no-op: preconditions passed and the duplicate check
reported that the head commit already carries a release. -/
def confirmedNoop (env : Env) : Prop :=
  preStepsOk env ∧ ∃ r, env.git.is_latest_commit_released = Except.ok (true, some r)

/-- A successful publish: exactly one release-creation call was made, it
succeeded, and both post-checks (sync re-check, release verification)
succeeded. -/
def successfulPublish (env : Env) : Prop :=
  ∃ c : String × String × String,
    createCalls (run_release env).trace = [c] ∧
    env.git.create_github_release c.1 c.2.1 c.2.2 = Except.ok () ∧
    env.git.check_up_to_date2 = Except.ok () ∧
    env.git.verify_release_on_latest_commit c.1 = Except.ok ()

/-! Helper lemmas. -/

/-- An `ok` answer of the root search names a directory that holds `.git`
and is not the filesystem root. -/
lemma find_root_rev_ok (fs : FS) (l : List String) (q : Path)
    (h : find_root_rev fs l = Except.ok q) :
    fs.pathExists (q ++ [".git"]) = true ∧ q ≠ [] := by
  induction l with
  | nil => simp [find_root_rev] at h
  | cons c rest ih =>
      rw [find_root_rev] at h
      by_cases hg : fs.pathExists ((c :: rest).reverse ++ [".git"]) = true
      · rw [if_pos hg] at h
        cases h
        exact ⟨hg, by simp⟩
      · rw [if_neg hg] at h
        exact ih h

/-- The root search either succeeds or raises `RuntimeError`. -/
lemma find_root_rev_total (fs : FS) (l : List String) :
    (∃ q, find_root_rev fs l = Except.ok q) ∨
      find_root_rev fs l = Except.error Exc.runtimeError := by
  induction l with
  | nil => exact Or.inr rfl
  | cons c rest ih =>
      rw [find_root_rev]
      by_cases hg : fs.pathExists ((c :: rest).reverse ++ [".git"]) = true
      · exact Or.inl ⟨_, by rw [if_pos hg]⟩
      · rw [if_neg hg]
        exact ih

/-- When no directory other than the root holds `.git`, the search always
raises (the root itself is never examined). -/
lemma find_root_rev_error (fs : FS)
    (hno : ∀ q : Path, q ≠ [] → fs.pathExists (q ++ [".git"]) = false) :
    ∀ l : List String, find_root_rev fs l = Except.error Exc.runtimeError := by
  intro l
  induction l with
  | nil => rfl
  | cons c rest ih =>
      rw [find_root_rev, if_neg, ih]
      rw [hno ((c :: rest).reverse) (by simp)]
      simp

/-- The reversed-list recursion is exactly the source loop: stop with
`RuntimeError` when `current == current.parent` (at the root), answer
`current` when `current/.git` exists, else ascend to the parent. -/
theorem find_project_root_step (fs : FS) (p : Path) :
    find_project_root fs p =
      if p = Path.parent p then Except.error Exc.runtimeError
      else if fs.pathExists (p ++ [".git"]) then Except.ok p
      else find_project_root fs (Path.parent p) := by
  induction p using List.reverseRecOn with
  | nil => simp [find_project_root, find_root_rev, Path.parent]
  | append_singleton xs x _ =>
      have hne : xs ++ [x] ≠ Path.parent (xs ++ [x]) := by
        simp only [Path.parent, List.dropLast_concat]
        intro heq
        have := congrArg List.length heq
        simp at this
      rw [if_neg hne]
      simp only [find_project_root, Path.parent, List.dropLast_concat, List.reverse_append,
        List.reverse_cons, List.reverse_nil, List.nil_append, List.singleton_append]
      rw [find_root_rev]
      simp

/-- C9: `find_project_root` is total (the definition is structurally
recursive, so every starting path terminates): it answers either a
directory that holds a `.git` entry and is not the filesystem root, or
`RuntimeError`; and since the root itself is never checked, a `.git`
entry sitting exactly at the root is never found — when no other
directory has one the search always raises. -/
theorem find_project_root_spec (fs : FS) (p : Path) :
    (∀ q, find_project_root fs p = Except.ok q →
      fs.pathExists (q ++ [".git"]) = true ∧ q ≠ []) ∧
    ((∃ q, find_project_root fs p = Except.ok q) ∨
      find_project_root fs p = Except.error Exc.runtimeError) ∧
    ((∀ q : Path, q ≠ [] → fs.pathExists (q ++ [".git"]) = false) →
      find_project_root fs p = Except.error Exc.runtimeError) :=
  ⟨fun q h => find_root_rev_ok fs p.reverse q h,
   find_root_rev_total fs p.reverse,
   fun hno => find_root_rev_error fs hno p.reverse⟩

/-- C9 witness: on a filesystem whose only `.git` entry sits exactly at
the root, the search started from `["home", "user"]` raises. -/
theorem find_project_root_spec_witness :
    find_project_root ⟨[], fun q => decide (q = [".git"]), fun _ => []⟩ ["home", "user"]
      = Except.error Exc.runtimeError :=
  (find_project_root_spec ⟨[], fun q => decide (q = [".git"]), fun _ => []⟩
      ["home", "user"]).2.2
    (fun q hq => by
      cases q with
      | nil => exact absurd rfl hq
      | cons a t => simp)

/-- C8: when configuration loading fails (`Config.init` raises for any of
its reasons: no project root, missing `.env`, missing LaTeX directory),
the run exits with code 1 and its trace holds the configuration step
alone — no build, no git call, no prompt, no release creation. -/
theorem config_failure_aborts (env : Env) (e : Exc)
    (h : Config.init env.fs = Except.error e) :
    run_release env = ⟨some 1, [Event.configLoad]⟩ := by
  simp [run_release, h]

/-- C8 witness: with no `.git` anywhere, the run exits 1 having done
nothing but the configuration step. -/
theorem config_failure_aborts_witness :
    run_release { envW with fs := ⟨["home"], fun _ => false, fun _ => []⟩ }
      = ⟨some 1, [Event.configLoad]⟩ :=
  config_failure_aborts { envW with fs := ⟨["home"], fun _ => false, fun _ => []⟩ }
    Exc.runtimeError (by decide)

/-- C7: when the document build fails — the `Makefile` is missing from the
configured LaTeX directory, or `make deploy` exits non-zero — the run
exits with code 1 and its trace stops at the build step: no prompt is
ever issued and `create_github_release` is never called. -/
theorem build_failure_aborts (env : Env) (cfg : Config)
    (hcfg : Config.init env.fs = Except.ok cfg)
    (hb : env.fs.pathExists (cfg.latex_dir ++ ["Makefile"]) = false ∨ env.makeSucceeds = false) :
    run_release env = ⟨some 1, [Event.configLoad, Event.build]⟩ ∧
      Event.prompt ∉ (run_release env).trace ∧
      createCalls (run_release env).trace = [] := by
  have hfail : ∃ e, build_latex env.fs env.makeSucceeds cfg.latex_dir = Except.error e := by
    rcases hb with hb | hb
    · exact ⟨Exc.fileNotFoundError, by rw [build_latex, hb]; simp⟩
    · unfold build_latex
      cases hpe : env.fs.pathExists (cfg.latex_dir ++ ["Makefile"]) with
      | false => exact ⟨Exc.fileNotFoundError, by simp⟩
      | true => exact ⟨Exc.runtimeError, by simp [hb]⟩
  obtain ⟨e, he⟩ := hfail
  have hrun : run_release env = ⟨some 1, [Event.configLoad, Event.build]⟩ := by
    simp [run_release, hcfg, he]
  refine ⟨hrun, ?_, ?_⟩ <;> rw [hrun] <;> simp [createCalls]

/-- C7 witness: same world as the successful run but `make deploy` fails;
the run exits 1 with no prompt and no release creation. -/
theorem build_failure_aborts_witness :
    run_release { envW with makeSucceeds := false }
        = ⟨some 1, [Event.configLoad, Event.build]⟩ ∧
      Event.prompt ∉ (run_release { envW with makeSucceeds := false }).trace ∧
      createCalls (run_release { envW with makeSucceeds := false }).trace = [] :=
  build_failure_aborts { envW with makeSucceeds := false }
    ⟨["repo"], "main", ["repo", "latex"]⟩ (by decide) (Or.inr rfl)

/-- C1: when the duplicate check reports that the head commit already has
a release, the run exits with code 0 and performs zero mutating calls:
`create_github_release` never appears in the trace. -/
theorem duplicate_guard_noop (env : Env) (cfg : Config) (r : ReleaseInfo)
    (hcfg : Config.init env.fs = Except.ok cfg)
    (hb : build_latex env.fs env.makeSucceeds cfg.latex_dir = Except.ok ())
    (hbr : env.git.check_on_main_branch = Except.ok ())
    (hup : env.git.check_up_to_date1 = Except.ok ())
    (hrel : env.git.is_latest_commit_released = Except.ok (true, some r)) :
    (run_release env).exitCode = some 0 ∧ createCalls (run_release env).trace = [] := by
  simp [run_release, hcfg, hb, hbr, hup, hrel, createCalls]

/-- C1 witness: head already released in the otherwise successful world;
exit 0 and no creation call. -/
theorem duplicate_guard_noop_witness :
    (run_release envDupW).exitCode = some 0 ∧
      createCalls (run_release envDupW).trace = [] :=
  duplicate_guard_noop envDupW ⟨["repo"], "main", ["repo", "latex"]⟩ ⟨"v0.9.0", none, none⟩
    (by decide) (by decide) rfl rfl rfl

/-- A tag the loop hands on is the strip of the first response that strips
to something non-empty; every earlier response stripped to empty. -/
lemma collectTag_ok (l : List (Except Exc String)) (t : String)
    (rest : List (Except Exc String))
    (h : collectTag l = some (Except.ok t, rest)) :
    t ≠ "" ∧ ∃ pre raw, l = pre ++ Except.ok raw :: rest ∧ t = prompt_user raw ∧
      ∀ x ∈ pre, ∃ s, x = Except.ok s ∧ prompt_user s = "" := by
  induction l with
  | nil => simp [collectTag] at h
  | cons x xs ih =>
      cases x with
      | error e => simp [collectTag] at h
      | ok s =>
          by_cases hs : prompt_user s = ""
          · rw [collectTag, if_pos hs] at h
            obtain ⟨ht, pre, raw, hl, htw, hpre⟩ := ih h
            refine ⟨ht, Except.ok s :: pre, raw, by simp [hl], htw, ?_⟩
            intro x hx
            rcases List.mem_cons.mp hx with hx | hx
            · exact ⟨s, hx, hs⟩
            · exact hpre x hx
          · rw [collectTag, if_neg hs] at h
            obtain ⟨h1, h2⟩ := Prod.mk.injEq .. ▸ Option.some.injEq .. ▸ h
            cases h1
            exact ⟨hs, [], s, by simp [h2], rfl, by simp⟩

/-- Blank responses are consumed one prompt apiece and the first
non-blank response becomes the tag. -/
lemma collectTag_blank_prefix (pre : List String) (raw : String)
    (rest : List (Except Exc String))
    (hpre : ∀ s ∈ pre, prompt_user s = "") (hraw : prompt_user raw ≠ "") :
    collectTag (pre.map Except.ok ++ Except.ok raw :: rest)
        = some (Except.ok (prompt_user raw), rest) ∧
      tagPromptCount (pre.map Except.ok ++ Except.ok raw :: rest) = pre.length + 1 := by
  induction pre with
  | nil => simp [collectTag, tagPromptCount, hraw]
  | cons s ss ih =>
      have hs : prompt_user s = "" := hpre s (List.mem_cons_self s ss)
      have hss : ∀ x ∈ ss, prompt_user x = "" := fun x hx => hpre x (List.mem_cons_of_mem s hx)
      obtain ⟨ih1, ih2⟩ := ih hss
      constructor
      · simpa [collectTag, hs] using ih1
      · have step : tagPromptCount (Except.ok s :: (List.map Except.ok ss ++ Except.ok raw :: rest))
            = 1 + tagPromptCount (List.map Except.ok ss ++ Except.ok raw :: rest) := by
          simp [tagPromptCount, hs]
        rw [List.map_cons, List.cons_append, step, ih2, List.length_cons]
        omega

/-- The map `createCalls` distributes over appending of traces. -/
lemma createCalls_append (l1 l2 : List Event) :
    createCalls (l1 ++ l2) = createCalls l1 ++ createCalls l2 := by
  induction l1 with
  | nil => rfl
  | cons x t ih => cases x <;> simp [createCalls, ih]

/-- A block of prompts contains no creation call. -/
lemma createCalls_replicate_prompt (n : Nat) :
    createCalls (List.replicate n Event.prompt) = [] := by
  induction n with
  | zero => rfl
  | succ k ih => simpa [List.replicate_succ, createCalls] using ih

/-- Inversion of a run that invoked `create_github_release`: every earlier
step succeeded, the head commit was not yet released, the tag/title/notes
came from the operator with the documented defaults, the tag was validated
first, and the run's exit code is decided by the outcomes of the creation
call and the two post-checks (sync again, then verification). -/
lemma reachedCreate (env : Env) (c : String × String × String)
    (hc : c ∈ createCalls (run_release env).trace) :
    ∃ cfg r tag tRaw nRaw rest3,
      Config.init env.fs = Except.ok cfg ∧
      build_latex env.fs env.makeSucceeds cfg.latex_dir = Except.ok () ∧
      env.git.check_on_main_branch = Except.ok () ∧
      env.git.check_up_to_date1 = Except.ok () ∧
      env.git.is_latest_commit_released = Except.ok (false, r) ∧
      collectTag env.inputs = some (Except.ok tag, Except.ok tRaw :: Except.ok nRaw :: rest3) ∧
      env.git.check_tag_validity tag = Except.ok () ∧
      c = (tag, (if prompt_user tRaw = "" then tag else prompt_user tRaw), prompt_user nRaw) ∧
      createCalls (run_release env).trace = [c] ∧
      ((run_release env).exitCode = some 0 ↔
        env.git.create_github_release c.1 c.2.1 c.2.2 = Except.ok () ∧
        env.git.check_up_to_date2 = Except.ok () ∧
        env.git.verify_release_on_latest_commit tag = Except.ok ()) ∧
      ((run_release env).exitCode = some 0 ∨ (run_release env).exitCode = some 1) ∧
      (env.git.create_github_release c.1 c.2.1 c.2.2 = Except.ok () →
        (run_release env).trace.count Event.gitCheckUpToDate = 2) := by
  cases hcfg : Config.init env.fs with
  | error e => simp [run_release, hcfg, createCalls] at hc
  | ok cfg =>
  cases hb : build_latex env.fs env.makeSucceeds cfg.latex_dir with
  | error e => simp [run_release, hcfg, hb, createCalls] at hc
  | ok u =>
  cases u
  cases hbr : env.git.check_on_main_branch with
  | error e => simp [run_release, hcfg, hb, hbr, createCalls] at hc
  | ok u =>
  cases u
  cases hup : env.git.check_up_to_date1 with
  | error e => simp [run_release, hcfg, hb, hbr, hup, createCalls] at hc
  | ok u =>
  cases u
  cases hrel : env.git.is_latest_commit_released with
  | error e => simp [run_release, hcfg, hb, hbr, hup, hrel, createCalls] at hc
  | ok pr =>
  obtain ⟨is_released, latest⟩ := pr
  cases is_released with
  | true =>
      cases latest with
      | none => simp [run_release, hcfg, hb, hbr, hup, hrel, createCalls] at hc
      | some r0 => simp [run_release, hcfg, hb, hbr, hup, hrel, createCalls] at hc
  | false =>
  cases hct : collectTag env.inputs with
  | none =>
      simp [run_release, hcfg, hb, hbr, hup, hrel, hct, createCalls,
        createCalls_append, createCalls_replicate_prompt] at hc
  | some pr2 =>
  obtain ⟨tagRes, rest⟩ := pr2
  cases tagRes with
  | error e =>
      simp [run_release, hcfg, hb, hbr, hup, hrel, hct, createCalls,
        createCalls_append, createCalls_replicate_prompt] at hc
  | ok tag =>
  cases rest with
  | nil =>
      simp [run_release, hcfg, hb, hbr, hup, hrel, hct, createCalls,
        createCalls_append, createCalls_replicate_prompt] at hc
  | cons titleRes rest2 =>
  cases titleRes with
  | error e =>
      simp [run_release, hcfg, hb, hbr, hup, hrel, hct, createCalls,
        createCalls_append, createCalls_replicate_prompt] at hc
  | ok tRaw =>
  cases rest2 with
  | nil =>
      simp [run_release, hcfg, hb, hbr, hup, hrel, hct, createCalls,
        createCalls_append, createCalls_replicate_prompt] at hc
  | cons notesRes rest3 =>
  cases notesRes with
  | error e =>
      simp [run_release, hcfg, hb, hbr, hup, hrel, hct, createCalls,
        createCalls_append, createCalls_replicate_prompt] at hc
  | ok nRaw =>
  cases hval : env.git.check_tag_validity tag with
  | error e =>
      simp [run_release, hcfg, hb, hbr, hup, hrel, hct, hval, createCalls,
        createCalls_append, createCalls_replicate_prompt] at hc
  | ok u =>
  cases u
  cases hcr : env.git.create_github_release tag
      (if prompt_user tRaw = "" then tag else prompt_user tRaw) (prompt_user nRaw) with
  | error e =>
      simp only [run_release, hcfg, hb, hbr, hup, hrel, hct, hval, hcr] at hc
      simp [createCalls, createCalls_append, createCalls_replicate_prompt] at hc
      subst hc
      refine ⟨cfg, latest, tag, tRaw, nRaw, rest3, rfl, hb, rfl, rfl, rfl, rfl, hval, rfl,
        ?_, ?_, ?_, ?_⟩
      · simp [run_release, hcfg, hb, hbr, hup, hrel, hct, hval, hcr, createCalls,
          createCalls_append, createCalls_replicate_prompt]
      · simp [run_release, hcfg, hb, hbr, hup, hrel, hct, hval, hcr]
      · simp [run_release, hcfg, hb, hbr, hup, hrel, hct, hval, hcr]
      · intro h
        rw [hcr] at h
        simp at h
  | ok u =>
  cases u
  cases hu2 : env.git.check_up_to_date2 with
  | error e =>
      simp only [run_release, hcfg, hb, hbr, hup, hrel, hct, hval, hcr, hu2] at hc
      simp [createCalls, createCalls_append, createCalls_replicate_prompt] at hc
      subst hc
      refine ⟨cfg, latest, tag, tRaw, nRaw, rest3, rfl, hb, rfl, rfl, rfl, rfl, hval, rfl,
        ?_, ?_, ?_, ?_⟩
      · simp [run_release, hcfg, hb, hbr, hup, hrel, hct, hval, hcr, hu2, createCalls,
          createCalls_append, createCalls_replicate_prompt]
      · simp [run_release, hcfg, hb, hbr, hup, hrel, hct, hval, hcr, hu2]
      · simp [run_release, hcfg, hb, hbr, hup, hrel, hct, hval, hcr, hu2]
      · intro h
        simp [run_release, hcfg, hb, hbr, hup, hrel, hct, hval, hcr, hu2,
          List.count_append, List.count_cons, List.count_nil, List.count_replicate]
  | ok u =>
  cases u
  cases hver : env.git.verify_release_on_latest_commit tag with
  | error e =>
      simp only [run_release, hcfg, hb, hbr, hup, hrel, hct, hval, hcr, hu2, hver] at hc
      simp [createCalls, createCalls_append, createCalls_replicate_prompt] at hc
      subst hc
      refine ⟨cfg, latest, tag, tRaw, nRaw, rest3, rfl, hb, rfl, rfl, rfl, rfl, hval, rfl,
        ?_, ?_, ?_, ?_⟩
      · simp [run_release, hcfg, hb, hbr, hup, hrel, hct, hval, hcr, hu2, hver, createCalls,
          createCalls_append, createCalls_replicate_prompt]
      · simp [run_release, hcfg, hb, hbr, hup, hrel, hct, hval, hcr, hu2, hver]
      · simp [run_release, hcfg, hb, hbr, hup, hrel, hct, hval, hcr, hu2, hver]
      · intro h
        simp [run_release, hcfg, hb, hbr, hup, hrel, hct, hval, hcr, hu2, hver,
          List.count_append, List.count_cons, List.count_nil, List.count_replicate]
  | ok u =>
  cases u
  simp only [run_release, hcfg, hb, hbr, hup, hrel, hct, hval, hcr, hu2, hver] at hc
  simp [createCalls, createCalls_append, createCalls_replicate_prompt] at hc
  subst hc
  refine ⟨cfg, latest, tag, tRaw, nRaw, rest3, rfl, hb, rfl, rfl, rfl, rfl, hval, rfl,
    ?_, ?_, ?_, ?_⟩
  · simp [run_release, hcfg, hb, hbr, hup, hrel, hct, hval, hcr, hu2, hver, createCalls,
      createCalls_append, createCalls_replicate_prompt]
  · simp [run_release, hcfg, hb, hbr, hup, hrel, hct, hval, hcr, hu2, hver]
  · simp [run_release, hcfg, hb, hbr, hup, hrel, hct, hval, hcr, hu2, hver]
  · intro h
    simp [run_release, hcfg, hb, hbr, hup, hrel, hct, hval, hcr, hu2, hver,
      List.count_append, List.count_cons, List.count_nil, List.count_replicate]

/-- C2: a release-creation call carries a tag that
`check_tag_validity` accepted on this very run — when validation fails
(raises), `create_github_release` is never called. -/
theorem validation_gates_publish (env : Env) (c : String × String × String)
    (hc : c ∈ createCalls (run_release env).trace) :
    env.git.check_tag_validity c.1 = Except.ok () := by
  obtain ⟨cfg, r, tag, tRaw, nRaw, rest3, _, _, _, _, _, _, hval, hceq, _, _, _, _⟩ :=
    reachedCreate env c hc
  subst hceq
  exact hval

/-- C2 witness: in the concrete successful run, the one created tag was
indeed accepted by validation. -/
theorem validation_gates_publish_witness :
    envW.git.check_tag_validity ("v1.0.0", "v1.0.0", "notes here").1 = Except.ok () :=
  validation_gates_publish envW ("v1.0.0", "v1.0.0", "notes here") (by decide)

/-- C3: once `create_github_release` has been invoked and succeeded, the
run re-runs the sync check (the trace holds two sync checks) and the
verification, exits 0 exactly when both post-checks succeed, and exits 1
(never any other code) when either fails — even though the release was
created. -/
theorem post_publish_verification (env : Env) (c : String × String × String)
    (hc : c ∈ createCalls (run_release env).trace)
    (hcr : env.git.create_github_release c.1 c.2.1 c.2.2 = Except.ok ()) :
    ((run_release env).exitCode = some 0 ↔
      env.git.check_up_to_date2 = Except.ok () ∧
      env.git.verify_release_on_latest_commit c.1 = Except.ok ()) ∧
    ((run_release env).exitCode = some 0 ∨ (run_release env).exitCode = some 1) ∧
    (run_release env).trace.count Event.gitCheckUpToDate = 2 := by
  obtain ⟨cfg, r, tag, tRaw, nRaw, rest3, _, _, _, _, _, _, hval, hceq, _, hiff, hdisj, hcount⟩ :=
    reachedCreate env c hc
  subst hceq
  refine ⟨?_, hdisj, hcount hcr⟩
  rw [hiff]
  simp [hcr]

/-- C3 witness: the concrete successful run exits 0 with both post-checks
passing and two sync checks in its trace. -/
theorem post_publish_verification_witness :
    ((run_release envW).exitCode = some 0 ↔
      envW.git.check_up_to_date2 = Except.ok () ∧
      envW.git.verify_release_on_latest_commit ("v1.0.0", "v1.0.0", "notes here").1
        = Except.ok ()) ∧
    ((run_release envW).exitCode = some 0 ∨ (run_release envW).exitCode = some 1) ∧
    (run_release envW).trace.count Event.gitCheckUpToDate = 2 :=
  post_publish_verification envW ("v1.0.0", "v1.0.0", "notes here") (by decide) (by decide)

/-- C6: the tag of any release-creation call is non-empty and is the
stripped first operator response that stripped to something non-empty;
every earlier response stripped to empty (and was re-prompted). -/
theorem tag_first_nonempty (env : Env) (c : String × String × String)
    (hc : c ∈ createCalls (run_release env).trace) :
    c.1 ≠ "" ∧
    ∃ pre raw rest, env.inputs = pre ++ Except.ok raw :: rest ∧
      c.1 = prompt_user raw ∧
      ∀ x ∈ pre, ∃ s, x = Except.ok s ∧ prompt_user s = "" := by
  obtain ⟨cfg, r, tag, tRaw, nRaw, rest3, _, _, _, _, _, hct, _, hceq, _, _, _, _⟩ :=
    reachedCreate env c hc
  obtain ⟨hne, pre, raw, hl, htw, hpre⟩ := collectTag_ok env.inputs tag _ hct
  subst hceq
  exact ⟨hne, pre, raw, _, hl, htw, hpre⟩

/-- C6 witness: in the concrete run the blank first response was skipped
and the tag is the strip of the second response. -/
theorem tag_first_nonempty_witness :
    ("v1.0.0", "v1.0.0", "notes here").1 ≠ "" ∧
    ∃ pre raw rest, envW.inputs = pre ++ Except.ok raw :: rest ∧
      ("v1.0.0", "v1.0.0", "notes here").1 = prompt_user raw ∧
      ∀ x ∈ pre, ∃ s, x = Except.ok s ∧ prompt_user s = "" :=
  tag_first_nonempty envW ("v1.0.0", "v1.0.0", "notes here") (by decide)

/-- Stripping the empty response yields the empty string. -/
lemma prompt_user_empty : prompt_user "" = "" := rfl

/-- C5: with a valid tag `T` entered and empty title and notes responses,
the release-creation call carries title `T` and empty notes — the
defaults are substituted before publish, not treated as failures. -/
theorem default_substitution (env : Env) (cfg : Config) (r : Option ReleaseInfo)
    (T : String) (rest3 : List (Except Exc String))
    (hcfg : Config.init env.fs = Except.ok cfg)
    (hb : build_latex env.fs env.makeSucceeds cfg.latex_dir = Except.ok ())
    (hbr : env.git.check_on_main_branch = Except.ok ())
    (hup : env.git.check_up_to_date1 = Except.ok ())
    (hrel : env.git.is_latest_commit_released = Except.ok (false, r))
    (hinp : env.inputs = Except.ok T :: Except.ok "" :: Except.ok "" :: rest3)
    (hT : prompt_user T = T) (hTne : T ≠ "")
    (hval : env.git.check_tag_validity T = Except.ok ()) :
    createCalls (run_release env).trace = [(T, T, "")] := by
  have hct : collectTag env.inputs = some (Except.ok T, Except.ok "" :: Except.ok "" :: rest3) := by
    rw [hinp]
    simp [collectTag, hT, hTne]
  cases hcr : env.git.create_github_release T T "" with
  | error e =>
      simp [run_release, hcfg, hb, hbr, hup, hrel, hct, hval, prompt_user_empty, hcr,
        createCalls, createCalls_append, createCalls_replicate_prompt]
  | ok u =>
  cases u
  cases hu2 : env.git.check_up_to_date2 with
  | error e =>
      simp [run_release, hcfg, hb, hbr, hup, hrel, hct, hval, prompt_user_empty, hcr, hu2,
        createCalls, createCalls_append, createCalls_replicate_prompt]
  | ok u =>
  cases u
  cases hver : env.git.verify_release_on_latest_commit T with
  | error e =>
      simp [run_release, hcfg, hb, hbr, hup, hrel, hct, hval, prompt_user_empty, hcr, hu2, hver,
        createCalls, createCalls_append, createCalls_replicate_prompt]
  | ok u =>
  cases u
  simp [run_release, hcfg, hb, hbr, hup, hrel, hct, hval, prompt_user_empty, hcr, hu2, hver,
    createCalls, createCalls_append, createCalls_replicate_prompt]

/-- C5 witness: tag `v2.3.0`, empty title, empty notes; the creation call
is `(v2.3.0, v2.3.0, "")`. -/
theorem default_substitution_witness :
    createCalls (run_release envSubW).trace = [("v2.3.0", "v2.3.0", "")] :=
  default_substitution envSubW ⟨["repo"], "main", ["repo", "latex"]⟩ none "v2.3.0" []
    (by decide) (by decide) rfl rfl rfl rfl (by decide) (by decide) rfl

/-- C10: operator responses are stripped by `prompt_user` before use:
whitespace-only responses before the tag are treated as empty and
re-prompted (one prompt each), a whitespace-only title falls back to the
tag, and whitespace-only notes yield an empty notes body; the tag itself
is used stripped. -/
theorem whitespace_stripped (env : Env) (cfg : Config) (r : Option ReleaseInfo)
    (pre : List String) (raw wsT wsN : String) (rest3 : List (Except Exc String))
    (hcfg : Config.init env.fs = Except.ok cfg)
    (hb : build_latex env.fs env.makeSucceeds cfg.latex_dir = Except.ok ())
    (hbr : env.git.check_on_main_branch = Except.ok ())
    (hup : env.git.check_up_to_date1 = Except.ok ())
    (hrel : env.git.is_latest_commit_released = Except.ok (false, r))
    (hinp : env.inputs
      = pre.map Except.ok ++ Except.ok raw :: Except.ok wsT :: Except.ok wsN :: rest3)
    (hpre : ∀ s ∈ pre, prompt_user s = "")
    (hraw : prompt_user raw ≠ "")
    (hT : prompt_user wsT = "") (hN : prompt_user wsN = "")
    (hval : env.git.check_tag_validity (prompt_user raw) = Except.ok ()) :
    createCalls (run_release env).trace = [(prompt_user raw, prompt_user raw, "")] ∧
    (run_release env).trace.count Event.prompt = pre.length + 3 := by
  obtain ⟨hct0, hcnt0⟩ :=
    collectTag_blank_prefix pre raw (Except.ok wsT :: Except.ok wsN :: rest3) hpre hraw
  rw [← hinp] at hct0 hcnt0
  cases hcr : env.git.create_github_release (prompt_user raw) (prompt_user raw) "" with
  | error e =>
      constructor
      · simp [run_release, hcfg, hb, hbr, hup, hrel, hct0, hT, hN, hval, hcr,
          createCalls, createCalls_append, createCalls_replicate_prompt]
      · simp [run_release, hcfg, hb, hbr, hup, hrel, hct0, hcnt0, hT, hN, hval, hcr,
          List.count_append, List.count_cons, List.count_nil, List.count_replicate_self,
          beq_iff_eq]
  | ok u =>
  cases u
  cases hu2 : env.git.check_up_to_date2 with
  | error e =>
      constructor
      · simp [run_release, hcfg, hb, hbr, hup, hrel, hct0, hT, hN, hval, hcr, hu2,
          createCalls, createCalls_append, createCalls_replicate_prompt]
      · simp [run_release, hcfg, hb, hbr, hup, hrel, hct0, hcnt0, hT, hN, hval, hcr, hu2,
          List.count_append, List.count_cons, List.count_nil, List.count_replicate_self,
          beq_iff_eq]
  | ok u =>
  cases u
  cases hver : env.git.verify_release_on_latest_commit (prompt_user raw) with
  | error e =>
      constructor
      · simp [run_release, hcfg, hb, hbr, hup, hrel, hct0, hT, hN, hval, hcr, hu2, hver,
          createCalls, createCalls_append, createCalls_replicate_prompt]
      · simp [run_release, hcfg, hb, hbr, hup, hrel, hct0, hcnt0, hT, hN, hval, hcr, hu2, hver,
          List.count_append, List.count_cons, List.count_nil, List.count_replicate_self,
          beq_iff_eq]
  | ok u =>
  cases u
  constructor
  · simp [run_release, hcfg, hb, hbr, hup, hrel, hct0, hT, hN, hval, hcr, hu2, hver,
      createCalls, createCalls_append, createCalls_replicate_prompt]
  · simp [run_release, hcfg, hb, hbr, hup, hrel, hct0, hcnt0, hT, hN, hval, hcr, hu2, hver,
      List.count_append, List.count_cons, List.count_nil, List.count_replicate_self,
      beq_iff_eq]

/-- C10 witness: a blank tag response, a padded tag, a whitespace title
and whitespace notes; the creation call uses the stripped tag twice and
empty notes, and four prompts were issued. -/
theorem whitespace_stripped_witness :
    createCalls (run_release envWsW).trace = [("v1.0.0", "v1.0.0", "")] ∧
    (run_release envWsW).trace.count Event.prompt = 4 := by
  have h := whitespace_stripped envWsW ⟨["repo"], "main", ["repo", "latex"]⟩ none
    [" "] " v1.0.0 " "  " " " []
    (by decide) (by decide) rfl rfl rfl (by decide) (by decide) (by decide) (by decide)
    (by decide) rfl
  exact ⟨by simpa using h.1, by simpa using h.2⟩

/-- C4: the run exits 0 exactly on the confirmed no-op (head already
released) or on a successful publish with both post-checks passing; the
only other outcomes are exit code 1 (every handled failure, interrupt
included — all exceptions are environment outcomes of kind `Exc`) and
blocking forever on operator input (`none`, no exit at all). -/
theorem exit_code_contract (env : Env) :
    ((run_release env).exitCode = some 0 ↔ confirmedNoop env ∨ successfulPublish env) ∧
    ((run_release env).exitCode = some 0 ∨ (run_release env).exitCode = some 1 ∨
      (run_release env).exitCode = none) := by
  cases hcfg : Config.init env.fs with
  | error e =>
      simp [run_release, hcfg, confirmedNoop, preStepsOk, successfulPublish,
        createCalls, createCalls_append, createCalls_replicate_prompt]
  | ok cfg =>
  cases hb : build_latex env.fs env.makeSucceeds cfg.latex_dir with
  | error e =>
      simp [run_release, hcfg, hb, confirmedNoop, preStepsOk, successfulPublish,
        createCalls, createCalls_append, createCalls_replicate_prompt]
  | ok u =>
  cases u
  cases hbr : env.git.check_on_main_branch with
  | error e =>
      simp [run_release, hcfg, hb, hbr, confirmedNoop, preStepsOk, successfulPublish,
        createCalls, createCalls_append, createCalls_replicate_prompt]
  | ok u =>
  cases u
  cases hup : env.git.check_up_to_date1 with
  | error e =>
      simp [run_release, hcfg, hb, hbr, hup, confirmedNoop, preStepsOk, successfulPublish,
        createCalls, createCalls_append, createCalls_replicate_prompt]
  | ok u =>
  cases u
  cases hrel : env.git.is_latest_commit_released with
  | error e =>
      simp [run_release, hcfg, hb, hbr, hup, hrel, confirmedNoop, preStepsOk, successfulPublish,
        createCalls, createCalls_append, createCalls_replicate_prompt]
  | ok pr =>
  obtain ⟨is_released, latest⟩ := pr
  cases is_released with
  | true =>
      cases latest with
      | none =>
          simp [run_release, hcfg, hb, hbr, hup, hrel, confirmedNoop, preStepsOk,
            successfulPublish, createCalls, createCalls_append, createCalls_replicate_prompt]
      | some r0 =>
          simp [run_release, hcfg, hb, hbr, hup, hrel, confirmedNoop, preStepsOk,
            successfulPublish, createCalls, createCalls_append, createCalls_replicate_prompt]
  | false =>
  cases hct : collectTag env.inputs with
  | none =>
      simp [run_release, hcfg, hb, hbr, hup, hrel, hct, confirmedNoop, preStepsOk,
        successfulPublish, createCalls, createCalls_append, createCalls_replicate_prompt]
  | some pr2 =>
  obtain ⟨tagRes, rest⟩ := pr2
  cases tagRes with
  | error e =>
      simp [run_release, hcfg, hb, hbr, hup, hrel, hct, confirmedNoop, preStepsOk,
        successfulPublish, createCalls, createCalls_append, createCalls_replicate_prompt]
  | ok tag =>
  cases rest with
  | nil =>
      simp [run_release, hcfg, hb, hbr, hup, hrel, hct, confirmedNoop, preStepsOk,
        successfulPublish, createCalls, createCalls_append, createCalls_replicate_prompt]
  | cons titleRes rest2 =>
  cases titleRes with
  | error e =>
      simp [run_release, hcfg, hb, hbr, hup, hrel, hct, confirmedNoop, preStepsOk,
        successfulPublish, createCalls, createCalls_append, createCalls_replicate_prompt]
  | ok tRaw =>
  cases rest2 with
  | nil =>
      simp [run_release, hcfg, hb, hbr, hup, hrel, hct, confirmedNoop, preStepsOk,
        successfulPublish, createCalls, createCalls_append, createCalls_replicate_prompt]
  | cons notesRes rest3 =>
  cases notesRes with
  | error e =>
      simp [run_release, hcfg, hb, hbr, hup, hrel, hct, confirmedNoop, preStepsOk,
        successfulPublish, createCalls, createCalls_append, createCalls_replicate_prompt]
  | ok nRaw =>
  cases hval : env.git.check_tag_validity tag with
  | error e =>
      simp [run_release, hcfg, hb, hbr, hup, hrel, hct, hval, confirmedNoop, preStepsOk,
        successfulPublish, createCalls, createCalls_append, createCalls_replicate_prompt]
  | ok u =>
  cases u
  cases hcr : env.git.create_github_release tag
      (if prompt_user tRaw = "" then tag else prompt_user tRaw) (prompt_user nRaw) with
  | error e =>
      simp [run_release, hcfg, hb, hbr, hup, hrel, hct, hval, hcr, confirmedNoop, preStepsOk,
        successfulPublish, createCalls, createCalls_append, createCalls_replicate_prompt]
  | ok u =>
  cases u
  cases hu2 : env.git.check_up_to_date2 with
  | error e =>
      simp [run_release, hcfg, hb, hbr, hup, hrel, hct, hval, hcr, hu2, confirmedNoop,
        preStepsOk, successfulPublish, createCalls, createCalls_append,
        createCalls_replicate_prompt]
  | ok u =>
  cases u
  cases hver : env.git.verify_release_on_latest_commit tag with
  | error e =>
      simp [run_release, hcfg, hb, hbr, hup, hrel, hct, hval, hcr, hu2, hver, confirmedNoop,
        preStepsOk, successfulPublish, createCalls, createCalls_append,
        createCalls_replicate_prompt]
  | ok u =>
  cases u
  simp [run_release, hcfg, hb, hbr, hup, hrel, hct, hval, hcr, hu2, hver, confirmedNoop,
    preStepsOk, successfulPublish, createCalls, createCalls_append,
    createCalls_replicate_prompt]

/-- C4 witness: the contract instantiated on the concrete successful
run. -/
theorem exit_code_contract_witness :
    ((run_release envW).exitCode = some 0 ↔ confirmedNoop envW ∨ successfulPublish envW) ∧
    ((run_release envW).exitCode = some 0 ∨ (run_release envW).exitCode = some 1 ∨
      (run_release envW).exitCode = none) :=
  exit_code_contract envW

end ReleaseTool
